import Mathlib

/-!
Shallow embedding of src/ros/src/waypoint_updater/waypoint_updater.py
(class WaypointUpdater).  Python floats are modelled as real numbers;
the mutable instance attributes threaded through a tick are passed and
returned explicitly.  Optional attributes that a callback may not have
set yet (current_pose, base_waypoints, current_velocity) are Option
values, matching the hasattr checks and the AttributeError a read of a
missing attribute would raise.
-/

namespace WaypointUpdater

/-- Number of waypoints published ahead (LOOKAHEAD_WPS = 200). -/
def LOOKAHEAD_WPS : ℕ := 200

/-- 3D position, the geometry_msgs point (x, y, z). -/
structure Pos where
  x : ℝ
  y : ℝ
  z : ℝ
  deriving Inhabited

/-- Orientation quaternion (x, y, z, w). -/
structure Quat where
  x : ℝ
  y : ℝ
  z : ℝ
  w : ℝ
  deriving Inhabited

/-- Pose: position plus orientation (pose.pose of a PoseStamped). -/
structure Pose where
  position : Pos
  orientation : Quat
  deriving Inhabited

/-- Route waypoint: its pose and its target speed
(twist.twist.linear.x, the nominal speed field). -/
structure Waypoint where
  pose : Pose
  speed : ℝ
  deriving Inhabited

/-- Euclidean 3D distance, method dl:
sqrt((a.x-b.x)**2 + (a.y-b.y)**2 + (a.z-b.z)**2). -/
noncomputable def dl (a b : Pos) : ℝ :=
  Real.sqrt ((a.x - b.x) ^ 2 + (a.y - b.y) ^ 2 + (a.z - b.z) ^ 2)

/-- Position of the waypoint at (unwrapped) index i; out-of-range reads
give the default element (the Python list would raise IndexError; the
indices actually read are tracked by distanceAccessedIndices). -/
def wpPos (waypoints : List Waypoint) (i : ℕ) : Pos :=
  (waypoints.getD i default).pose.position

/-- Method distance(waypoints, wp1, wp2): the loop
for i in range(wp1, wp2 + 1): dist += dl(waypoints[wp1], waypoints[i]); wp1 = i.
The fold state is the pair (wp1, dist). -/
noncomputable def distance (waypoints : List Waypoint) (wp1 wp2 : ℕ) : ℝ :=
  ((List.range' wp1 (wp2 + 1 - wp1)).foldl
    (fun st i => (i, st.2 + dl (wpPos waypoints st.1) (wpPos waypoints i)))
    (wp1, (0 : ℝ))).2

/-- Indices the distance loop reads from the waypoint list: each
iteration reads waypoints[st.1] and waypoints[i], st.1 being wp1 on the
first iteration and the previous i afterwards, so the set of indices
read is exactly the iteration range range(wp1, wp2 + 1). -/
def distanceAccessedIndices (wp1 wp2 : ℕ) : List ℕ :=
  List.range' wp1 (wp2 + 1 - wp1)

/-- The decel lambda in resolve_traffic_lights:
abs(current_velocity**2 / (2*x)). -/
noncomputable def decel (v x : ℝ) : ℝ := |v ^ 2 / (2 * x)|

/-- The two mutable fields the stop resolver owns: self.state
(0 = move, 1 = stop) and self.breaking_acceleration (None until the
first transition into state 1). -/
structure ResolverState where
  state : ℕ
  breaking_acceleration : Option ℝ
  deriving Inhabited

/-- Method resolve_traffic_lights(next_wp), with the instance fields it
reads and writes made explicit.  traffic_waypoint is the raw Int32 of
the /traffic_waypoint topic (-1 = no red light). -/
noncomputable def resolve_traffic_lights (rs : ResolverState) (traffic_waypoint : ℤ)
    (current_velocity : ℝ) (breaking_acceleration_limit : ℝ)
    (base_waypoints : List Waypoint) (next_wp : ℕ) : ResolverState :=
  if rs.state = 0 then
    if traffic_waypoint ≠ -1 then
      let traffic_light_distance := distance base_waypoints next_wp traffic_waypoint.toNat
      let min_distance := decel current_velocity breaking_acceleration_limit
      if traffic_light_distance > min_distance then
        ⟨1, some (decel current_velocity traffic_light_distance)⟩
      else
        ⟨0, rs.breaking_acceleration⟩
    else
      ⟨0, rs.breaking_acceleration⟩
  else if traffic_waypoint = -1 then
    ⟨0, rs.breaking_acceleration⟩
  else
    rs

/-- Base waypoint at wrapped index, the expression
base_waypoints.waypoints[i % len(base_waypoints.waypoints)]. -/
def baseAt (base : List Waypoint) (i : ℕ) : Waypoint :=
  base.getD (i % base.length) default

/-- Driving branch (state == 0) of calculate_final_waypoints: for i in
range(start_wp, start_wp + LOOKAHEAD_WPS), a fresh Waypoint carrying the
base pose and the base speed at index i mod length. -/
noncomputable def drivingWindow (base : List Waypoint) (start_wp : ℕ) : List Waypoint :=
  (List.range' start_wp LOOKAHEAD_WPS).map
    (fun i => ⟨(baseAt base i).pose, (baseAt base i).speed⟩)

/-- Braking segment before the light: for i in
range(start_wp, traffic_waypoint), base pose and base speed unchanged. -/
noncomputable def segmentA (base : List Waypoint) (start_wp S : ℕ) : List Waypoint :=
  (List.range' start_wp (S - start_wp)).map
    (fun i => ⟨(baseAt base i).pose, (baseAt base i).speed⟩)

/-- Braking segment from the light on: for i in
range(traffic_waypoint, max(start_wp + LOOKAHEAD_WPS, traffic_waypoint + 1)),
base pose with speed 0.0. -/
noncomputable def segmentB (base : List Waypoint) (start_wp S : ℕ) : List Waypoint :=
  (List.range' S (max (start_wp + LOOKAHEAD_WPS) (S + 1) - S)).map
    (fun i => ⟨(baseAt base i).pose, 0⟩)

/-- Body of the backward smoothing loop
for wp in self.final_waypoints[:target_wp][::-1] : each entry is
rewritten once, from its own position, the stop entry position and its
own (still nominal) speed, so the iteration order does not matter and
the loop is a map over the slice.  In every reachable braking state A
is an absolute value, so the radicand is nonnegative and Real.sqrt
agrees with math.sqrt (which would raise on a negative argument). -/
noncomputable def brakeSmooth (A : ℝ) (lastPos : Pos) (wp : Waypoint) : Waypoint :=
  let dist := dl wp.pose.position lastPos
  let vel := Real.sqrt (2 * A * max 0 (dist - 5))
  let vel2 := if vel < 1 then 0 else vel
  { wp with speed := min vel2 wp.speed }

/-- The list self.final_waypoints right after the two emit loops of the
braking branch: segment A then segment B.  target_wp, read between the
loops, is the length of segment A. -/
noncomputable def bw_fw1 (base : List Waypoint) (start_wp S : ℕ) : List Waypoint :=
  segmentA base start_wp S ++ segmentB base start_wp S

/-- Pose of last = self.final_waypoints[target_wp], the first stop-zone
entry (segment B is never empty, so the read is in bounds). -/
noncomputable def bw_lastPose (base : List Waypoint) (start_wp S : ℕ) : Pose :=
  ((bw_fw1 base start_wp S).getD (segmentA base start_wp S).length default).pose

/-- The list after last.twist.twist.linear.x = 0.0: element target_wp
is overwritten with speed 0 (its pose is untouched). -/
noncomputable def bw_fw2 (base : List Waypoint) (start_wp S : ℕ) : List Waypoint :=
  (bw_fw1 base start_wp S).set (segmentA base start_wp S).length
    ⟨bw_lastPose base start_wp S, 0⟩

/-- Braking branch (state == 1) of calculate_final_waypoints: segment A,
then segment B, then final_waypoints[target_wp] is forced to speed 0
(the mutation of the aliased element last), then the backward smoothing
pass over the first target_wp entries. -/
noncomputable def brakingWindow (A : ℝ) (base : List Waypoint) (start_wp S : ℕ) :
    List Waypoint :=
  ((bw_fw2 base start_wp S).take (segmentA base start_wp S).length).map
      (brakeSmooth A (bw_lastPose base start_wp S).position) ++
    (bw_fw2 base start_wp S).drop (segmentA base start_wp S).length

/-- Method calculate_final_waypoints(start_wp), returning the fresh
self.final_waypoints list.  A is self.breaking_acceleration, which in
the braking state was set at the transition into state 1.  In state 1
the resolver guarantees traffic_waypoint is not the sentinel, hence
nonnegative, so its toNat is the Python int. -/
noncomputable def calculate_final_waypoints (state : ℕ) (traffic_waypoint : ℤ) (A : ℝ)
    (base : List Waypoint) (start_wp : ℕ) : List Waypoint :=
  if state = 0 then drivingWindow base start_wp
  else if state = 1 then brakingWindow A base start_wp traffic_waypoint.toNat
  else []

/-- One iteration of the get_closest_waypoint loop.  The accumulator is
the pair (min_dist, wp); min_dist starts as the float inf sentinel,
modelled as none, which every finite distance beats. -/
noncomputable def closestStep (posn : Pos) (base : List Waypoint)
    (acc : Option ℝ × ℕ) (i : ℕ) : Option ℝ × ℕ :=
  let dist := dl posn (wpPos base i)
  match acc with
  | (none, _) => (some dist, i)
  | (some m, w) => if dist < m then (some dist, i) else (some m, w)

/-- Method get_closest_waypoint: linear scan over all waypoint indices,
keeping the index of the minimum distance (strict comparison, so ties
keep the earliest index); wp starts at 0. -/
noncomputable def get_closest_waypoint (posn : Pos) (base : List Waypoint) : ℕ :=
  ((List.range base.length).foldl (closestStep posn base) (none, 0)).2

/-- Two-argument arctangent as math.atan2 computes it (atan2(0, 0) = 0). -/
noncomputable def atan2 (y x : ℝ) : ℝ :=
  if 0 < x then Real.arctan (y / x)
  else if x < 0 ∧ 0 ≤ y then Real.arctan (y / x) + Real.pi
  else if x < 0 then Real.arctan (y / x) - Real.pi
  else if 0 < y then Real.pi / 2
  else if y < 0 then -(Real.pi / 2)
  else 0

/-- Yaw angle of a quaternion: the last component of
tf.transformations.euler_from_quaternion([x, y, z, w]), which for the
default axis convention is atan2(2(wz + xy), 1 - 2(y^2 + z^2)). -/
noncomputable def yawOf (q : Quat) : ℝ :=
  atan2 (2 * (q.w * q.z + q.x * q.y)) (1 - 2 * (q.y ^ 2 + q.z ^ 2))

/-- Method get_next_waypoint: the closest index, bumped by one
(unwrapped) when the closest waypoint lies more than pi/4 away from the
vehicle heading. -/
noncomputable def get_next_waypoint (current_pose : Pose) (base : List Waypoint) : ℕ :=
  let next_wp := get_closest_waypoint current_pose.position base
  let next_pose_position := wpPos base next_wp
  let cur_pose_position := current_pose.position
  let heading := atan2 (next_pose_position.y - cur_pose_position.y)
    (next_pose_position.x - cur_pose_position.x)
  let theta := yawOf current_pose.orientation
  let angle := |theta - heading|
  if angle ≤ Real.pi / 4 then next_wp else next_wp + 1

/-- The node instance fields a tick reads or writes.  current_pose,
base_waypoints and current_velocity are None until their callback first
fires (hasattr); final_waypoints is None until the first full tick. -/
structure NodeState where
  current_pose : Option Pose
  base_waypoints : Option (List Waypoint)
  current_velocity : Option ℝ
  traffic_waypoint : ℤ
  state : ℕ
  breaking_acceleration : Option ℝ
  breaking_acceleration_limit : ℝ
  final_waypoints : Option (List Waypoint)

/-- Unhandled Python exceptions a tick can raise. -/
inductive PyError
  | indexError
  | attributeError
  | typeError
  deriving DecidableEq

/-- Outcome of one tick of the 10 Hz loop: the early return when a
start message is missing, an uncaught exception (which kills the node:
nothing in update or main catches these), or a publish of the message
final_waypoints[:LOOKAHEAD_WPS]. -/
inductive TickResult
  | idle
  | crash (e : PyError)
  | published (msg : List Waypoint)

/-- Method update(), one tick: the hasattr guard (current_pose and
base_waypoints only), then get_next_waypoint, resolve_traffic_lights
and calculate_final_waypoints, then the publish.  The crash branches
mark the statements whose Python originals raise: indexing waypoint 0
of an empty route in get_next_waypoint, reading self.current_velocity
before the velocity callback ever ran, the distance loop indexing past
the end of the route, and 2 * None in the smoothing pass when braking
with breaking_acceleration still None.  Beyond the guard the returned
state carries the two resolver fields and the fresh final_waypoints;
every other field, base_waypoints included, is returned unchanged. -/
noncomputable def update (s : NodeState) : NodeState × TickResult :=
  match s.current_pose, s.base_waypoints with
  | some current_pose, some base =>
    if base.length = 0 then (s, .crash .indexError)
    else
      let next_wp := get_next_waypoint current_pose base
      if s.state = 0 ∧ s.traffic_waypoint ≠ -1 ∧ s.current_velocity.isNone then
        (s, .crash .attributeError)
      else if s.state = 0 ∧ s.traffic_waypoint ≠ -1 ∧
          ¬ (∀ i ∈ distanceAccessedIndices next_wp s.traffic_waypoint.toNat,
              i < base.length) then
        (s, .crash .indexError)
      else
        let rs := resolve_traffic_lights ⟨s.state, s.breaking_acceleration⟩
          s.traffic_waypoint (s.current_velocity.getD 0)
          s.breaking_acceleration_limit base next_wp
        if rs.state = 1 ∧ rs.breaking_acceleration.isNone ∧
            next_wp < s.traffic_waypoint.toNat then
          (s, .crash .typeError)
        else
          let fw := calculate_final_waypoints rs.state s.traffic_waypoint
            (rs.breaking_acceleration.getD 0) base next_wp
          ({ s with
              state := rs.state
              breaking_acceleration := rs.breaking_acceleration
              final_waypoints := some fw },
            .published (fw.take LOOKAHEAD_WPS))
  | _, _ => (s, .idle)

/-- Waypoint on the x axis with nominal speed 10, for concrete inputs. -/
def mkWp (x : ℝ) : Waypoint := ⟨⟨⟨x, 0, 0⟩, ⟨0, 0, 0, 1⟩⟩, 10⟩

/-- Concrete route of 10 waypoints 10 units apart (the scenario of the
spec: all nominal speeds 10). -/
def route10 : List Waypoint :=
  [mkWp 0, mkWp 10, mkWp 20, mkWp 30, mkWp 40,
   mkWp 50, mkWp 60, mkWp 70, mkWp 80, mkWp 90]

/-- Vehicle pose at the origin, identity orientation. -/
def pose0 : Pose := ⟨⟨0, 0, 0⟩, ⟨0, 0, 0, 1⟩⟩

lemma dl_self (a : Pos) : dl a a = 0 := by
  simp [dl]

lemma decel_abs (v x : ℝ) : decel v x = v ^ 2 / (2 * |x|) := by
  unfold decel
  rw [abs_div, abs_of_nonneg (sq_nonneg v), abs_mul, abs_two]

lemma decel_of_pos (v : ℝ) {x : ℝ} (hx : 0 < x) : decel v x = v ^ 2 / (2 * x) := by
  rw [decel_abs, abs_of_pos hx]

/-- The distance loop returns 0 when the end index is at or before the
start index: the iteration range is empty for idx < next_wp, and for
idx = next_wp the single term is the distance of a waypoint to itself. -/
lemma distance_zero_of_le (base : List Waypoint) (next_wp idx : ℕ)
    (h : idx ≤ next_wp) : distance base next_wp idx = 0 := by
  rcases eq_or_lt_of_le h with heq | hlt
  · subst heq
    have h1 : idx + 1 - idx = 1 := by omega
    simp [distance, h1, dl_self]
  · have h0 : idx + 1 - next_wp = 0 := by omega
    simp [distance, h0]

/-- With the sentinel -1 on the traffic topic the resolver lands in
state 0 whatever the prior state, keeping breaking_acceleration. -/
lemma resolve_sentinel (rs : ResolverState) (v limit : ℝ)
    (base : List Waypoint) (next_wp : ℕ) :
    resolve_traffic_lights rs (-1) v limit base next_wp =
      ⟨0, rs.breaking_acceleration⟩ := by
  by_cases h : rs.state = 0 <;> simp [resolve_traffic_lights, h]

/-- C1.  For a tick in the Driving state (state 0) with a stop signal at
index idx, with D the route-arc distance from the tracked index to idx
(the distance method) and M = v^2 / (2 |decel_limit|): when D > M the
resolver moves to Braking (state 1) recording deceleration exactly
v^2 / (2 D); when D <= M it stays Driving and records nothing. -/
theorem C1_stop_feasibility (rs : ResolverState) (idx : ℕ) (v limit : ℝ)
    (base : List Waypoint) (next_wp : ℕ) (hstate : rs.state = 0) :
    (v ^ 2 / (2 * |limit|) < distance base next_wp idx →
      resolve_traffic_lights rs (idx : ℤ) v limit base next_wp =
        ⟨1, some (v ^ 2 / (2 * distance base next_wp idx))⟩) ∧
    (distance base next_wp idx ≤ v ^ 2 / (2 * |limit|) →
      resolve_traffic_lights rs (idx : ℤ) v limit base next_wp =
        ⟨0, rs.breaking_acceleration⟩) := by
  have hne : (idx : ℤ) ≠ -1 := by omega
  constructor
  · intro hD
    have hgt : distance base next_wp idx > decel v limit := by
      rw [gt_iff_lt, decel_abs]; exact hD
    have hDpos : 0 < distance base next_wp idx :=
      lt_of_le_of_lt (abs_nonneg _) hgt
    simp [resolve_traffic_lights, hstate, hne, hgt, decel_of_pos v hDpos]
  · intro hD
    have hng : ¬ distance base next_wp idx > decel v limit := by
      rw [gt_iff_lt, not_lt, decel_abs]; exact hD
    simp [resolve_traffic_lights, hstate, hne, hng]

/-- Witness for C1 at the spec scenario: 10 waypoints 10 apart, tracked
index 0, stop index 5, speed 10, limit -5. -/
theorem C1_stop_feasibility_witness :
    (⟨0, none⟩ : ResolverState).state = 0 ∧
    (((10 : ℝ) ^ 2 / (2 * |(-5 : ℝ)|) < distance route10 0 5 →
      resolve_traffic_lights ⟨0, none⟩ ((5 : ℕ) : ℤ) 10 (-5) route10 0 =
        ⟨1, some ((10 : ℝ) ^ 2 / (2 * distance route10 0 5))⟩) ∧
    (distance route10 0 5 ≤ (10 : ℝ) ^ 2 / (2 * |(-5 : ℝ)|) →
      resolve_traffic_lights ⟨0, none⟩ ((5 : ℕ) : ℤ) 10 (-5) route10 0 =
        ⟨0, (⟨0, none⟩ : ResolverState).breaking_acceleration⟩)) :=
  ⟨rfl, C1_stop_feasibility ⟨0, none⟩ 5 10 (-5) route10 0 rfl⟩

/-- C4.  A tick with the sentinel -1 always leaves the resolver in the
Driving state (0), whatever state it was in, even mid-deceleration. -/
theorem C4_sentinel_resets_to_driving (rs : ResolverState) (v limit : ℝ)
    (base : List Waypoint) (next_wp : ℕ) :
    (resolve_traffic_lights rs (-1) v limit base next_wp).state = 0 ∧
    (resolve_traffic_lights rs (-1) v limit base next_wp).breaking_acceleration =
      rs.breaking_acceleration := by
  rw [resolve_sentinel]
  exact ⟨rfl, rfl⟩

/-- C9.  When the tracked index is at or past a valid stop index, the
distance loop reads no index out of bounds (also when next_wp is the
unwrapped closest + 1 = route length), returns D = 0, and since
0 > M = |...| fails, a Driving resolver stays Driving. -/
theorem C9_stop_at_or_behind_tracked (base : List Waypoint) (next_wp idx : ℕ)
    (hidx : idx < base.length) (hle : idx ≤ next_wp) :
    (∀ i ∈ distanceAccessedIndices next_wp idx, i < base.length) ∧
    distance base next_wp idx = 0 ∧
    ∀ (rs : ResolverState) (v limit : ℝ), rs.state = 0 →
      resolve_traffic_lights rs (idx : ℤ) v limit base next_wp =
        ⟨0, rs.breaking_acceleration⟩ := by
  have hD := distance_zero_of_le base next_wp idx hle
  refine ⟨?_, hD, ?_⟩
  · intro i hi
    rw [distanceAccessedIndices, List.mem_range'] at hi
    obtain ⟨t, ht, rfl⟩ := hi
    omega
  · intro rs v limit h0
    have hne : (idx : ℤ) ≠ -1 := by omega
    have hng : ¬ distance base next_wp idx > decel v limit := by
      rw [gt_iff_lt, not_lt, hD]
      exact abs_nonneg _
    simp [resolve_traffic_lights, h0, hne, hng]

/-- Witness for C9: stop index 3 with the tracked index also 3 on the
concrete route (the one-iteration case of the distance loop). -/
theorem C9_stop_at_or_behind_tracked_witness :
    3 < route10.length ∧ distance route10 3 3 = 0 :=
  ⟨by simp [route10], (C9_stop_at_or_behind_tracked route10 3 3
    (by simp [route10]) (le_refl 3)).2.1⟩

lemma segmentA_length (base : List Waypoint) (start_wp S : ℕ) :
    (segmentA base start_wp S).length = S - start_wp := by
  simp [segmentA]

lemma segmentB_length (base : List Waypoint) (start_wp S : ℕ) :
    (segmentB base start_wp S).length =
      max (start_wp + LOOKAHEAD_WPS) (S + 1) - S := by
  simp [segmentB]

/-- The stop zone always holds at least one entry, because the loop
bound max(start_wp + LOOKAHEAD_WPS, S + 1) is at least S + 1. -/
lemma stop_zone_cnt_pos (start_wp S : ℕ) :
    0 < max (start_wp + LOOKAHEAD_WPS) (S + 1) - S := by
  have h := le_max_right (start_wp + LOOKAHEAD_WPS) (S + 1)
  omega

lemma segmentA_getElem (base : List Waypoint) (start_wp S k : ℕ)
    (hk : k < S - start_wp) :
    (segmentA base start_wp S)[k]? =
      some ⟨(baseAt base (start_wp + k)).pose, (baseAt base (start_wp + k)).speed⟩ := by
  rw [segmentA, List.getElem?_map, List.getElem?_range' _ _ hk]
  simp

lemma segmentB_getElem (base : List Waypoint) (start_wp S m : ℕ)
    (hm : m < max (start_wp + LOOKAHEAD_WPS) (S + 1) - S) :
    (segmentB base start_wp S)[m]? = some ⟨(baseAt base (S + m)).pose, 0⟩ := by
  rw [segmentB, List.getElem?_map, List.getElem?_range' _ _ hm]
  simp

lemma bw_fw1_length (base : List Waypoint) (s S : ℕ) :
    (bw_fw1 base s S).length =
      (S - s) + (max (s + LOOKAHEAD_WPS) (S + 1) - S) := by
  simp [bw_fw1, segmentA_length, segmentB_length]

/-- The pose of the first stop-zone entry is the base pose at the
wrapped stop index. -/
lemma bw_lastPose_eq (base : List Waypoint) (s S : ℕ) :
    bw_lastPose base s S = (baseAt base S).pose := by
  rw [bw_lastPose, List.getD_eq_getElem?_getD, bw_fw1,
    List.getElem?_append_right (le_refl _), Nat.sub_self,
    segmentB_getElem base s S 0 (stop_zone_cnt_pos s S)]
  simp

lemma bw_fw2_length (base : List Waypoint) (s S : ℕ) :
    (bw_fw2 base s S).length =
      (S - s) + (max (s + LOOKAHEAD_WPS) (S + 1) - S) := by
  rw [bw_fw2, List.length_set]
  exact bw_fw1_length base s S

/-- Before target_wp the overwrite of element target_wp changes
nothing: an entry of the cruise zone is the untouched segment A copy. -/
lemma bw_fw2_getElem_lt (base : List Waypoint) (s S k : ℕ) (hk : k < S - s) :
    (bw_fw2 base s S)[k]? =
      some ⟨(baseAt base (s + k)).pose, (baseAt base (s + k)).speed⟩ := by
  have hne : (segmentA base s S).length ≠ k := by
    rw [segmentA_length]; omega
  have hlt : k < (segmentA base s S).length := by
    rw [segmentA_length]; exact hk
  rw [bw_fw2, List.getElem?_set_ne hne, bw_fw1, List.getElem?_append_left hlt,
    segmentA_getElem base s S k hk]

/-- Stop-zone entry m of the mutated list: for m = 0 it is the freshly
set element (pose of the stop waypoint, speed 0), for m > 0 the
segment B copy (already speed 0). -/
lemma bw_fw2_getElem_stop (base : List Waypoint) (s S m : ℕ)
    (hm : m < max (s + LOOKAHEAD_WPS) (S + 1) - S) :
    (bw_fw2 base s S)[(S - s) + m]? = some ⟨(baseAt base (S + m)).pose, 0⟩ := by
  rcases Nat.eq_zero_or_pos m with rfl | hmpos
  · have hlen : (segmentA base s S).length < (bw_fw1 base s S).length := by
      rw [segmentA_length, bw_fw1_length]
      have := stop_zone_cnt_pos s S
      omega
    rw [Nat.add_zero, show S - s = (segmentA base s S).length from
      (segmentA_length base s S).symm, bw_fw2, List.getElem?_set_self hlen,
      bw_lastPose_eq]
    simp
  · have hne : (segmentA base s S).length ≠ (S - s) + m := by
      rw [segmentA_length]; omega
    have hge : (segmentA base s S).length ≤ (S - s) + m := by
      rw [segmentA_length]; omega
    rw [bw_fw2, List.getElem?_set_ne hne, bw_fw1,
      List.getElem?_append_right hge, segmentA_length,
      show (S - s) + m - (S - s) = m from by omega,
      segmentB_getElem base s S m hm]

lemma brakingWindow_length (A : ℝ) (base : List Waypoint) (s S : ℕ) :
    (brakingWindow A base s S).length =
      (S - s) + (max (s + LOOKAHEAD_WPS) (S + 1) - S) := by
  rw [brakingWindow, List.length_append, List.length_map, List.length_take,
    List.length_drop, bw_fw2_length, segmentA_length]
  omega

/-- Cruise-zone entry k of the braking window is the smoothing function
applied to the segment A copy, against the stop waypoint pose. -/
lemma brakingWindow_getElem_cruise (A : ℝ) (base : List Waypoint) (s S k : ℕ)
    (hk : k < S - s) :
    (brakingWindow A base s S)[k]? =
      some (brakeSmooth A (baseAt base S).pose.position
        ⟨(baseAt base (s + k)).pose, (baseAt base (s + k)).speed⟩) := by
  have hk' : k < (segmentA base s S).length := by
    rw [segmentA_length]; exact hk
  have htake : k < ((bw_fw2 base s S).take (segmentA base s S).length).length := by
    rw [List.length_take, bw_fw2_length, segmentA_length]
    exact lt_min hk (by omega)
  have hmap : k < (((bw_fw2 base s S).take (segmentA base s S).length).map
      (brakeSmooth A (bw_lastPose base s S).position)).length := by
    rw [List.length_map]; exact htake
  rw [brakingWindow, List.getElem?_append_left hmap, List.getElem?_map,
    List.getElem?_take_of_lt hk', bw_fw2_getElem_lt base s S k hk,
    bw_lastPose_eq]
  simp

/-- Stop-zone entry m of the braking window. -/
lemma brakingWindow_getElem_stop (A : ℝ) (base : List Waypoint) (s S m : ℕ)
    (hm : m < max (s + LOOKAHEAD_WPS) (S + 1) - S) :
    (brakingWindow A base s S)[(S - s) + m]? =
      some ⟨(baseAt base (S + m)).pose, 0⟩ := by
  have hlen : (((bw_fw2 base s S).take (segmentA base s S).length).map
      (brakeSmooth A (bw_lastPose base s S).position)).length = S - s := by
    rw [List.length_map, List.length_take, bw_fw2_length, segmentA_length]
    exact Nat.min_eq_left (Nat.le_add_right _ _)
  rw [brakingWindow, List.getElem?_append_right (by rw [hlen]; omega), hlen,
    List.getElem?_drop, segmentA_length,
    show S - s + ((S - s) + m - (S - s)) = (S - s) + m from by omega,
    bw_fw2_getElem_stop base s S m hm]

lemma calc_braking (S : ℕ) (A : ℝ) (base : List Waypoint) (s : ℕ) :
    calculate_final_waypoints 1 (S : ℤ) A base s = brakingWindow A base s S := by
  simp [calculate_final_waypoints]

lemma calc_driving (tw : ℤ) (A : ℝ) (base : List Waypoint) (s : ℕ) :
    calculate_final_waypoints 0 tw A base s = drivingWindow base s := by
  simp [calculate_final_waypoints]

/-- C3.  Braking with stop index S and tracked index t: the window is
segment A (t up to S) followed by the stop zone, whose entries cover
route indices [S, max(t + LOOKAHEAD_WPS, S + 1)) so it is never empty,
all carry target speed 0, and the first stop-zone entry (position
target_wp = S - t) is the explicitly zeroed one. -/
theorem C3_stop_zone (base : List Waypoint) (start_wp S : ℕ) (A : ℝ) :
    (calculate_final_waypoints 1 (S : ℤ) A base start_wp).length =
      (S - start_wp) + (max (start_wp + LOOKAHEAD_WPS) (S + 1) - S) ∧
    0 < max (start_wp + LOOKAHEAD_WPS) (S + 1) - S ∧
    (∀ m, m < max (start_wp + LOOKAHEAD_WPS) (S + 1) - S →
      (calculate_final_waypoints 1 (S : ℤ) A base start_wp)[(S - start_wp) + m]? =
        some ⟨(baseAt base (S + m)).pose, 0⟩) ∧
    (calculate_final_waypoints 1 (S : ℤ) A base start_wp)[S - start_wp]? =
      some ⟨(baseAt base S).pose, 0⟩ := by
  rw [calc_braking]
  refine ⟨brakingWindow_length A base start_wp S, stop_zone_cnt_pos start_wp S,
    fun m hm => brakingWindow_getElem_stop A base start_wp S m hm, ?_⟩
  have h0 := brakingWindow_getElem_stop A base start_wp S 0 (stop_zone_cnt_pos start_wp S)
  simpa using h0

/-- C2.  Braking, cruise-zone entry k (position before the stop zone):
its target speed is min(candidate, nominal) where the candidate is
sqrt(2 A max(0, dist - 5)) of the straight-line distance to the stop
entry pose, snapped to 0 below 1.0; hence it never exceeds the entry's
own nominal speed. -/
theorem C2_braking_cruise_speed (base : List Waypoint) (start_wp S : ℕ) (A : ℝ)
    (k : ℕ) (hk : k < S - start_wp) :
    (calculate_final_waypoints 1 (S : ℤ) A base start_wp)[k]? =
      some ⟨(baseAt base (start_wp + k)).pose,
        min (if Real.sqrt (2 * A * max 0 (dl (baseAt base (start_wp + k)).pose.position
                (baseAt base S).pose.position - 5)) < 1 then 0
             else Real.sqrt (2 * A * max 0 (dl (baseAt base (start_wp + k)).pose.position
                (baseAt base S).pose.position - 5)))
          (baseAt base (start_wp + k)).speed⟩ ∧
    ∀ w : Waypoint,
      (calculate_final_waypoints 1 (S : ℤ) A base start_wp)[k]? = some w →
        w.speed ≤ (baseAt base (start_wp + k)).speed := by
  have hmain : (calculate_final_waypoints 1 (S : ℤ) A base start_wp)[k]? =
      some ⟨(baseAt base (start_wp + k)).pose,
        min (if Real.sqrt (2 * A * max 0 (dl (baseAt base (start_wp + k)).pose.position
                (baseAt base S).pose.position - 5)) < 1 then 0
             else Real.sqrt (2 * A * max 0 (dl (baseAt base (start_wp + k)).pose.position
                (baseAt base S).pose.position - 5)))
          (baseAt base (start_wp + k)).speed⟩ := by
    rw [calc_braking, brakingWindow_getElem_cruise A base start_wp S k hk]
    simp [brakeSmooth]
  refine ⟨hmain, ?_⟩
  intro w hw
  rw [hmain] at hw
  have hw' := Option.some.inj hw
  rw [← hw']
  exact min_le_right _ _

/-- Witness for C2: the concrete route, stop index 5, tracked index 0,
deceleration 1, entry 2 of the cruise zone. -/
theorem C2_braking_cruise_speed_witness :
    2 < 5 - 0 ∧
    ∀ w : Waypoint,
      (calculate_final_waypoints 1 ((5 : ℕ) : ℤ) 1 route10 0)[2]? = some w →
        w.speed ≤ (baseAt route10 (0 + 2)).speed :=
  ⟨by norm_num, (C2_braking_cruise_speed route10 0 5 1 2 (by norm_num)).2⟩

/-- C6.  Driving: the published window (truncated to LOOKAHEAD_WPS
entries) has at most LOOKAHEAD_WPS entries, and entry k is the base
pose and unchanged base nominal speed at route index (t + k) mod N. -/
theorem C6_driving_window (base : List Waypoint) (start_wp : ℕ)
    (traffic_waypoint : ℤ) (A : ℝ) (hN : 0 < base.length) :
    ((calculate_final_waypoints 0 traffic_waypoint A base start_wp).take
        LOOKAHEAD_WPS).length ≤ LOOKAHEAD_WPS ∧
    ∀ k, k < LOOKAHEAD_WPS →
      ((calculate_final_waypoints 0 traffic_waypoint A base start_wp).take
          LOOKAHEAD_WPS)[k]? =
        some ⟨(base.getD ((start_wp + k) % base.length) default).pose,
          (base.getD ((start_wp + k) % base.length) default).speed⟩ := by
  rw [calc_driving]
  constructor
  · rw [List.length_take]
    exact min_le_left _ _
  · intro k hk
    rw [List.getElem?_take_of_lt hk, drivingWindow, List.getElem?_map,
      List.getElem?_range' _ _ hk]
    simp [baseAt]

/-- Witness for C6 at the concrete route. -/
theorem C6_driving_window_witness :
    0 < route10.length ∧
    ((calculate_final_waypoints 0 (-1) 0 route10 0).take LOOKAHEAD_WPS).length ≤
      LOOKAHEAD_WPS :=
  ⟨by simp [route10], (C6_driving_window route10 0 (-1) 0 (by simp [route10])).1⟩

/-- Invariant of the get_closest_waypoint scan over the first n indices
(n > 0): the accumulator holds the distance m and index w of a closest
waypoint among 0..n-1, and every strictly earlier index is strictly
farther (the strict comparison keeps the first minimum). -/
lemma closest_fold_spec (posn : Pos) (base : List Waypoint) :
    ∀ n : ℕ, 0 < n →
      ∃ m w, (List.range n).foldl (closestStep posn base) (none, 0) = (some m, w) ∧
        w < n ∧ m = dl posn (wpPos base w) ∧
        (∀ j, j < n → m ≤ dl posn (wpPos base j)) ∧
        (∀ j, j < w → m < dl posn (wpPos base j)) := by
  intro n
  induction n with
  | zero => intro h; exact absurd h (lt_irrefl 0)
  | succ n ih =>
    intro _
    rw [List.range_succ, List.foldl_append, List.foldl_cons, List.foldl_nil]
    rcases Nat.eq_zero_or_pos n with rfl | hn
    · refine ⟨dl posn (wpPos base 0), 0, ?_, Nat.lt_succ_self 0, rfl, ?_, ?_⟩
      · simp [closestStep]
      · intro j hj
        have hj0 : j = 0 := by omega
        rw [hj0]
      · intro j hj
        exact absurd hj (Nat.not_lt_zero j)
    · obtain ⟨m, w, heq, hw, hm, hmin, hfirst⟩ := ih hn
      rw [heq]
      by_cases hlt : dl posn (wpPos base n) < m
      · refine ⟨dl posn (wpPos base n), n, ?_, Nat.lt_succ_self n, rfl, ?_, ?_⟩
        · simp [closestStep, hlt]
        · intro j hj
          rcases Nat.lt_succ_iff_lt_or_eq.mp hj with h | h
          · exact le_of_lt (lt_of_lt_of_le hlt (hmin j h))
          · rw [h]
        · intro j hj
          exact lt_of_lt_of_le hlt (hmin j hj)
      · refine ⟨m, w, ?_, Nat.lt_succ_of_lt hw, hm, ?_, hfirst⟩
        · simp [closestStep, hlt]
        · intro j hj
          rcases Nat.lt_succ_iff_lt_or_eq.mp hj with h | h
          · exact hmin j h
          · rw [h]; exact not_lt.mp hlt

/-- What get_closest_waypoint returns on a nonempty route: an in-range
index of minimum distance, ties going to the lowest index. -/
lemma get_closest_spec (posn : Pos) (base : List Waypoint) (h : 0 < base.length) :
    get_closest_waypoint posn base < base.length ∧
    (∀ j, j < base.length →
      dl posn (wpPos base (get_closest_waypoint posn base)) ≤ dl posn (wpPos base j)) ∧
    (∀ j, j < get_closest_waypoint posn base →
      dl posn (wpPos base (get_closest_waypoint posn base)) < dl posn (wpPos base j)) := by
  obtain ⟨m, w, heq, hw, hm, hmin, hfirst⟩ := closest_fold_spec posn base base.length h
  have hg : get_closest_waypoint posn base = w := by
    rw [get_closest_waypoint, heq]
  rw [hg]
  exact ⟨hw, fun j hj => hm ▸ hmin j hj, fun j hj => hm ▸ hfirst j hj⟩

/-- C5.  On a nonempty route the locator returns the index closest to
the vehicle (Euclidean distance, ties to the lowest index); the
returned next waypoint is that index when the absolute difference
between the vehicle yaw and the bearing to it is at most pi/4 (the
boundary pi/4 included), and the unwrapped index + 1 when it exceeds
pi/4. -/
theorem C5_next_waypoint_locator (current_pose : Pose) (base : List Waypoint)
    (h : base ≠ []) :
    get_closest_waypoint current_pose.position base < base.length ∧
    (∀ j, j < base.length →
      dl current_pose.position
          (wpPos base (get_closest_waypoint current_pose.position base)) ≤
        dl current_pose.position (wpPos base j)) ∧
    (∀ j, j < get_closest_waypoint current_pose.position base →
      dl current_pose.position
          (wpPos base (get_closest_waypoint current_pose.position base)) <
        dl current_pose.position (wpPos base j)) ∧
    (|yawOf current_pose.orientation -
        atan2 ((wpPos base (get_closest_waypoint current_pose.position base)).y -
            current_pose.position.y)
          ((wpPos base (get_closest_waypoint current_pose.position base)).x -
            current_pose.position.x)| ≤ Real.pi / 4 →
      get_next_waypoint current_pose base =
        get_closest_waypoint current_pose.position base) ∧
    (Real.pi / 4 <
      |yawOf current_pose.orientation -
        atan2 ((wpPos base (get_closest_waypoint current_pose.position base)).y -
            current_pose.position.y)
          ((wpPos base (get_closest_waypoint current_pose.position base)).x -
            current_pose.position.x)| →
      get_next_waypoint current_pose base =
        get_closest_waypoint current_pose.position base + 1) := by
  have hlen : 0 < base.length := List.length_pos.mpr h
  obtain ⟨h1, h2, h3⟩ := get_closest_spec current_pose.position base hlen
  refine ⟨h1, h2, h3, ?_, ?_⟩
  · intro hang
    rw [get_next_waypoint]
    exact if_pos hang
  · intro hang
    rw [get_next_waypoint]
    exact if_neg (not_le.mpr hang)

/-- Witness for C5 at a concrete one-waypoint route. -/
theorem C5_next_waypoint_locator_witness :
    ([mkWp 1] : List Waypoint) ≠ [] ∧
    get_closest_waypoint pose0.position [mkWp 1] < ([mkWp 1] : List Waypoint).length :=
  ⟨by simp, (C5_next_waypoint_locator pose0 [mkWp 1] (by simp)).1⟩

/-- A tick with pose and (nonempty) route received and the sentinel on
the traffic topic always publishes: the resolver resets to Driving, the
node stores the fresh window and emits its first LOOKAHEAD_WPS entries.
Note the guard never looks at current_velocity. -/
lemma update_published (s : NodeState) (p : Pose) (base : List Waypoint)
    (hp : s.current_pose = some p) (hb : s.base_waypoints = some base)
    (hlen : base.length ≠ 0) (htw : s.traffic_waypoint = -1) :
    update s =
      ({ s with
          state := 0
          breaking_acceleration := s.breaking_acceleration
          final_waypoints := some (calculate_final_waypoints 0 s.traffic_waypoint
            (s.breaking_acceleration.getD 0) base (get_next_waypoint p base)) },
        TickResult.published ((calculate_final_waypoints 0 s.traffic_waypoint
          (s.breaking_acceleration.getD 0) base (get_next_waypoint p base)).take
            LOOKAHEAD_WPS)) := by
  simp only [update, hp, hb]
  simp [hlen, htw, resolve_sentinel]

/-- C7 (amended).  The tick is an idle no-op exactly while the pose or
the route snapshot is missing; the scalar forward speed is not part of
the guard, so with pose and nonempty route present and no stop signal
pending, the pipeline runs and publishes even before any velocity
message. -/
theorem C7_tick_guard (s : NodeState) :
    ((s.current_pose = none ∨ s.base_waypoints = none) →
      update s = (s, TickResult.idle)) ∧
    (∀ (p : Pose) (base : List Waypoint), s.current_pose = some p →
      s.base_waypoints = some base → 0 < base.length → s.traffic_waypoint = -1 →
      ∃ msg, (update s).2 = TickResult.published msg) := by
  constructor
  · intro h
    rcases h with h | h
    · simp [update, h]
    · rcases hcp : s.current_pose with _ | p
      · simp [update, hcp]
      · simp [update, hcp, h]
  · intro p base hp hb hlen htw
    rw [update_published s p base hp hb (Nat.pos_iff_ne_zero.mp hlen) htw]
    exact ⟨_, rfl⟩

/-- Node state with pose and a one-waypoint route received but no
velocity message yet, no stop signal pending. -/
def sNoVelocity : NodeState :=
  ⟨some pose0, some [mkWp 1], none, -1, 0, none, -5, none⟩

/-- Counterexample to C7 as stated: the vehicle forward speed has never
been received, yet the tick performs the full pipeline and publishes
(the hasattr guard checks only current_pose and base_waypoints). -/
theorem C7_tick_guard_counterexample :
    sNoVelocity.current_velocity = none ∧
    sNoVelocity.current_pose ≠ none ∧ sNoVelocity.base_waypoints ≠ none ∧
    ∃ msg, (update sNoVelocity).2 = TickResult.published msg := by
  refine ⟨rfl, by simp [sNoVelocity], by simp [sNoVelocity], ?_⟩
  rw [update_published sNoVelocity pose0 [mkWp 1] rfl rfl (by simp) rfl]
  exact ⟨_, rfl⟩

/-- Node state whose route snapshot is the empty list. -/
def sEmptyRoute : NodeState :=
  ⟨some pose0, some [], none, -1, 0, none, -5, none⟩

/-- C8.  An empty route is not guarded: the tick dies on the
out-of-bounds read base_waypoints.waypoints[0] inside get_next_waypoint
(an uncaught IndexError), before any index-mod-length arithmetic of the
window builder runs; the node state is untouched and nothing is
published. -/
theorem C8_empty_route_crash :
    update sEmptyRoute = (sEmptyRoute, TickResult.crash PyError.indexError) := by
  simp [update, sEmptyRoute]

/-- C10.  A tick never mutates the route store: whatever branch runs,
the returned node state carries base_waypoints unchanged, so every base
waypoint keeps its pose and nominal speed (speeds are written only into
the freshly built window entries). -/
theorem C10_route_store_frame (s : NodeState) :
    (update s).1.base_waypoints = s.base_waypoints ∧
    ∀ j : ℕ, ((update s).1.base_waypoints.getD []).getD j default =
      (s.base_waypoints.getD []).getD j default := by
  have h : (update s).1.base_waypoints = s.base_waypoints := by
    rcases hcp : s.current_pose with _ | p
    · simp [update, hcp]
    · rcases hbw : s.base_waypoints with _ | base
      · simp [update, hcp, hbw]
      · simp only [update, hcp, hbw]
        split_ifs <;> simp [hbw]
  exact ⟨h, fun j => by rw [h]⟩

/-- Concrete check of the arc-distance embedding on the spec scenario:
10 waypoints 10 units apart, tracked index 0, stop index 5, D = 50. -/
theorem scenario_arc_distance : distance route10 0 5 = 50 := by
  have h100 : Real.sqrt 100 = 10 := by
    rw [show (100 : ℝ) = 10 ^ 2 by norm_num]
    exact Real.sqrt_sq (by norm_num)
  have p0 : wpPos route10 0 = ⟨0, 0, 0⟩ := rfl
  have p1 : wpPos route10 1 = ⟨10, 0, 0⟩ := rfl
  have p2 : wpPos route10 2 = ⟨20, 0, 0⟩ := rfl
  have p3 : wpPos route10 3 = ⟨30, 0, 0⟩ := rfl
  have p4 : wpPos route10 4 = ⟨40, 0, 0⟩ := rfl
  have p5 : wpPos route10 5 = ⟨50, 0, 0⟩ := rfl
  have hr : List.range' 0 (5 + 1 - 0) = [0, 1, 2, 3, 4, 5] := rfl
  rw [distance, hr]
  simp only [List.foldl_cons, List.foldl_nil]
  simp only [p0, p1, p2, p3, p4, p5]
  norm_num [dl, h100]

/-- Concrete check of the resolver on the same scenario: speed 10,
limit -5, so M = 10 < D = 50 and the transition records deceleration
100 / (2 * 50) = 1. -/
theorem scenario_resolver_brakes :
    resolve_traffic_lights ⟨0, none⟩ ((5 : ℕ) : ℤ) 10 (-5) route10 0 =
      ⟨1, some 1⟩ := by
  have hD : distance route10 0 5 = 50 := scenario_arc_distance
  have hgt : distance route10 0 5 > decel 10 (-5) := by
    rw [hD, decel_abs]
    norm_num
  have hA : decel 10 (distance route10 0 5) = 1 := by
    rw [hD, decel_of_pos 10 (by norm_num : (0 : ℝ) < 50)]
    norm_num
  have hne : ((5 : ℕ) : ℤ) ≠ -1 := by omega
  simp [resolve_traffic_lights, hne, hgt, hA]

end WaypointUpdater
